import Mathlib

/-!
# Verification of the requirements-advisor image cache and ingestion pipeline

A shallow embedding of the core of `requirements_advisor` (the image cache in
`images/cache.py` and `images/base.py`, and the ingestion pipeline in
`ingestion/pipeline.py`), with theorems settling the specification claims.

Conventions of the embedding:
* Python `str | None` fields become `Option String`; Python truthiness of such
  a value (`not x` / `x or y`) is modelled by `optStrTruthy` / `strTruthy`.
* Python IEEE-754 double arithmetic (`max_dimension / width`, `width * ratio`)
  is modelled exactly: `roundPos` rounds a rational to the nearest double
  (53-bit significand, ties to even), so `fdiv`/`fmul` agree with CPython on
  the inputs that arise here (all well inside the normal range).
* Image raster bytes are not modelled; a decoded raster is a `ModelImage`
  (mode, the `"transparency" in img.info` flag, whether any pixel is actually
  non-opaque, and the pixel dimensions).  The encoder output bytes are
  likewise dropped: `_process_image` returns the `(media_type, width, height)`
  part of its tuple.
* The network is an oracle `net : Nat → Except String FetchedPayload` giving
  the outcome of HTTP attempt 0, 1, 2 …; `fetch_and_cache` records the number
  of attempts it made and the `asyncio.sleep` durations, in order.
* `hashlib.sha256(url.encode()).hexdigest()[:16]` is abstracted as a pure
  function `hashUrl : String → String` carried by the cache configuration;
  every theorem holds for an arbitrary such function.
-/

deriving instance DecidableEq for Except

namespace RequirementsAdvisor

/-- Python truthiness of a `str`: `""` is falsy, everything else truthy. -/
def strTruthy (s : String) : Bool := s ≠ ""

/-- Python truthiness of a `str | None`: `None` and `""` are falsy. -/
def optStrTruthy : Option String → Bool
  | none => false
  | some s => strTruthy s

/-- `a or b` on Python `str | None` values (first truthy operand, else `b`). -/
def pyOrOpt (a b : Option String) : Option String :=
  if optStrTruthy a then a else b

/-! ## IEEE-754 double model

CPython's `int / int` and `int * float` are correctly rounded double
operations.  A non-negative double is represented exactly as `m * 2 ^ (-s)`
(`FP.m` the integer significand after rounding, `FP.s` the binary scale);
`roundPos p q` rounds the positive rational `p / q` to the nearest double
(53-bit significand, round half to even).  Subnormally small values
(`< 2 ^ (-64)`) and overflow are out of range for every input arising here
and are not modelled.  All arithmetic is on `Nat`/`Int`, so the model
evaluates by kernel reduction. -/

/-- `⌊log₂ n⌋` by structural recursion on fuel (exact whenever
`n < 2 ^ fuel`; callers pass fuel 200 and arguments below `2 ^ 140`). -/
def log2Fuel : Nat → Nat → Nat
  | 0, _ => 0
  | fuel + 1, n => if n ≤ 1 then 0 else log2Fuel fuel (n / 2) + 1

/-- A non-negative double, represented exactly: its value is
`m * 2 ^ (-s)`. -/
structure FP where
  m : Nat
  s : Int
deriving DecidableEq, Repr

/-- Round the positive rational `p / q` (with `p / q ≥ 2 ^ (-64)`) to the
nearest IEEE-754 double: find the exponent `e = ⌊log₂ (p/q)⌋`, scale to a
significand in `[2^52, 2^53)`, and round half to even. -/
def roundPos (p q : Nat) : FP :=
  let t := p * 2 ^ 64 / q
  if t = 0 then ⟨0, 0⟩ else
  let e : Int := (log2Fuel 200 t : Int) - 64
  let s : Int := 52 - e
  let A := if 0 ≤ s then p * 2 ^ s.toNat else p
  let B := if 0 ≤ s then q else q * 2 ^ (-s).toNat
  let Q := A / B
  let R := A % B
  let m := if 2 * R < B then Q
    else if B < 2 * R then Q + 1
    else if Q % 2 = 0 then Q else Q + 1
  ⟨m, s⟩

/-- Exact `≤` on represented doubles (`a.m * 2^(-a.s) ≤ b.m * 2^(-b.s)`,
cross-multiplied to stay in `Nat`). -/
def leF (a b : FP) : Bool :=
  let c := max a.s b.s
  a.m * 2 ^ (c - a.s).toNat ≤ b.m * 2 ^ (c - b.s).toNat

/-- Python `min` on two doubles: the first if it is `≤` the second. -/
def minF (a b : FP) : FP := if leF a b then a else b

/-- Python `a / b` on integers: correctly rounded double division. -/
def fdiv (a b : Nat) : FP := roundPos a b

/-- Python `n * r` with `n : int`, `r : float`: correctly rounded double
multiplication (the conversion of `n` to double is exact for the image
dimensions in range). -/
def fmul (n : Nat) (r : FP) : FP :=
  if 0 ≤ r.s then roundPos (n * r.m) (2 ^ r.s.toNat)
  else roundPos (n * r.m * 2 ^ (-r.s).toNat) 1

/-- Python `int(x)` for a non-negative double: truncation toward zero. -/
def pyInt (r : FP) : Nat :=
  if 0 ≤ r.s then r.m / 2 ^ r.s.toNat else r.m * 2 ^ (-r.s).toNat

/-! ## Image transform (`ImageCache._process_image`) -/

/-- PIL image mode, as tested by `_process_image`. -/
inductive PILMode where
  | RGBA | LA | P | RGB | L
  /-- any other mode ("CMYK", "I", …) -/
  | other (name : String)
deriving DecidableEq, Repr

/-- A decoded raster.  `infoTransparency` models `"transparency" in img.info`;
`hasNonOpaquePixel` records whether the raster actually contains a pixel with
alpha < 255 — the code never inspects it, it exists so that the spec's notion
of "genuine transparency" can be stated about the input. -/
structure ModelImage where
  mode : PILMode
  infoTransparency : Bool
  hasNonOpaquePixel : Bool
  width : Nat
  height : Nat
deriving DecidableEq, Repr

/-- Configuration of an `ImageCache` (constructor arguments), with the URL
hash abstracted as a pure function. -/
structure ImageCacheModel where
  max_dimension : Nat := 1024
  quality : Nat := 85
  timeout : Nat := 30
  hashUrl : String → String

/-- The spec's "genuine transparency": an alpha channel with actual
non-opaque pixels, or a palette declaring a transparent index.  Stated from
the spec's words, for comparison with what the code computes. -/
def genuineTransparency (img : ModelImage) : Bool :=
  ((img.mode == PILMode.RGBA || img.mode == PILMode.LA) && img.hasNonOpaquePixel)
    || (img.mode == PILMode.P && img.infoTransparency)

/-- `ImageCache._process_image`, minus the encoded bytes: returns
`(media_type, width, height)`, or `Except.error` when PIL cannot decode the
payload (`data = none`).  `content_type` is accepted and ignored, exactly as
in the source. -/
def _process_image (cfg : ImageCacheModel) (data : Option ModelImage)
    (content_type : String) : Except String (String × Nat × Nat) :=
  match data with
  | none => .error "cannot identify image file"
  | some img =>
    -- has_transparency = img.mode in ("RGBA", "LA") or
    --                    (img.mode == "P" and "transparency" in img.info)
    let has_transparency : Bool :=
      img.mode == PILMode.RGBA || img.mode == PILMode.LA
        || (img.mode == PILMode.P && img.infoTransparency)
    let mode :=
      if img.mode == PILMode.RGBA && !has_transparency then PILMode.RGB
      else if img.mode == PILMode.P then
        (if has_transparency then PILMode.RGBA else PILMode.RGB)
      else if !(img.mode == PILMode.RGB || img.mode == PILMode.RGBA
          || img.mode == PILMode.L) then PILMode.RGB
      else img.mode
    let width := img.width
    let height := img.height
    let dims :=
      if cfg.max_dimension < width ∨ cfg.max_dimension < height then
        let ratio := minF (fdiv cfg.max_dimension width) (fdiv cfg.max_dimension height)
        (pyInt (fmul width ratio), pyInt (fmul height ratio))
      else (width, height)
    let media_type :=
      if mode == PILMode.RGBA || has_transparency then "image/png" else "image/jpeg"
    .ok (media_type, dims.1, dims.2)

/-! ## Data model (`images/base.py`) -/

/-- `CachedImage` (pydantic model in `images/base.py`). -/
structure CachedImage where
  id : String
  source_doc_id : String
  original_url : String
  alt_text : Option String := none
  title : Option String := none
  caption : Option String := none
  context : Option String := none
  media_type : String
  file_path : String
  width : Option Nat := none
  height : Option Nat := none
  fetch_error : Option String := none
deriving DecidableEq, Repr

/-- `ImageIndex`: `images_by_doc : dict[str, list[CachedImage]]`, modelled as
an insertion-ordered association list (Python dicts preserve insertion
order). -/
structure ImageIndex where
  images_by_doc : List (String × List CachedImage) := []
deriving DecidableEq, Repr

/-- `ImageIndex.add_image`: create the key with `[]` if absent (new keys go
to the end of the dict order), then append the image to its list. -/
def ImageIndex.add_image (idx : ImageIndex) (doc_id : String)
    (image : CachedImage) : ImageIndex :=
  if idx.images_by_doc.any (fun p => p.1 == doc_id) then
    ⟨idx.images_by_doc.map
      (fun p => if p.1 == doc_id then (p.1, p.2 ++ [image]) else p)⟩
  else
    ⟨idx.images_by_doc ++ [(doc_id, [image])]⟩

/-- `ImageIndex.get_images`: `self.images_by_doc.get(doc_id, [])`. -/
def ImageIndex.get_images (idx : ImageIndex) (doc_id : String) :
    List CachedImage :=
  match idx.images_by_doc.find? (fun p => p.1 == doc_id) with
  | some p => p.2
  | none => []

/-- `ImageIndex.get_images_for_docs`: extend an accumulator with each id's
images, in the order the ids are given. -/
def ImageIndex.get_images_for_docs (idx : ImageIndex) (doc_ids : List String) :
    List CachedImage :=
  doc_ids.flatMap idx.get_images

/-! ## Image cache (`images/cache.py`) -/

/-- The flattened traversal order of `_find_cached`: all lists in
`images_by_doc.values()`, concatenated in dict order. -/
def ImageIndex.allImages (idx : ImageIndex) : List CachedImage :=
  idx.images_by_doc.flatMap (fun p => p.2)

/-- The condition `img.id == image_id and img.file_path and not
img.fetch_error` (Python truthiness on both string fields). -/
def cacheHit (image_id : String) (img : CachedImage) : Bool :=
  img.id == image_id && strTruthy img.file_path && !optStrTruthy img.fetch_error

/-- `ImageCache._find_cached`: first index entry with this id, a truthy
file_path and a falsy fetch_error, in iteration order. -/
def _find_cached (idx : ImageIndex) (image_id : String) : Option CachedImage :=
  idx.allImages.find? (cacheHit image_id)

/-- What one successful HTTP attempt yields: `response.content` decodes to
`data` (`none` = PIL cannot parse it), and the `content-type` header (with
the code's `"image/jpeg"` default already applied). -/
structure FetchedPayload where
  data : Option ModelImage
  content_type : String
deriving Repr

/-- The retry loop `for attempt in range(3)` of `fetch_and_cache`, with
`fuel = 2 - attempt` (so `fuel = 0` exactly when `attempt == 2`, the final
attempt).  Returns the outcome, the number of HTTP attempts performed from
this point, and the chronological `asyncio.sleep(2**attempt)` durations. -/
def retryFetch (net : Nat → Except String FetchedPayload) :
    Nat → Nat → Except String FetchedPayload × Nat × List Nat
  | attempt, fuel =>
    match net attempt, fuel with
    | .ok payload, _ => (.ok payload, 1, [])
    | .error e, 0 => (.error e, 1, [])
    | .error _, fuel + 1 =>
      let rest := retryFetch net (attempt + 1) fuel
      (rest.1, rest.2.1 + 1, 2 ^ attempt :: rest.2.2)

/-- The observable outcome of one `fetch_and_cache` call: the returned
`CachedImage`, the index afterwards (the body only ever reads it), the
number of HTTP attempts, and the sleep durations. -/
structure FetchOutcome where
  result : CachedImage
  index : ImageIndex
  httpAttempts : Nat
  sleeps : List Nat
deriving Repr

/-- `ImageCache.fetch_and_cache`.  The cache-hit path returns a copy of the
existing entry re-linked to this call's document and descriptive fields; the
fetch path makes up to 3 attempts with exponential backoff and returns a
failure-shaped `CachedImage` on final failure or processing error; on
success the processed image is written to `"<id>.<ext>"` and a fully
populated `CachedImage` returned. -/
def fetch_and_cache (cfg : ImageCacheModel) (idx : ImageIndex)
    (net : Nat → Except String FetchedPayload) (url doc_id : String)
    (alt_text title caption context : Option String := none) : FetchOutcome :=
  let image_id := cfg.hashUrl url
  match _find_cached idx image_id with
  | some existing =>
    { result :=
        { id := image_id, source_doc_id := doc_id, original_url := url
          alt_text := alt_text, title := title, caption := caption
          context := context, media_type := existing.media_type
          file_path := existing.file_path, width := existing.width
          height := existing.height, fetch_error := none }
      index := idx, httpAttempts := 0, sleeps := [] }
  | none =>
    match retryFetch net 0 2 with
    | (.error e, n, sleeps) =>
      { result :=
          { id := image_id, source_doc_id := doc_id, original_url := url
            alt_text := alt_text, title := title, caption := caption
            context := context, media_type := "image/jpeg", file_path := ""
            width := none, height := none, fetch_error := some e }
        index := idx, httpAttempts := n, sleeps := sleeps }
    | (.ok payload, n, sleeps) =>
      match _process_image cfg payload.data payload.content_type with
      | .error e =>
        { result :=
            { id := image_id, source_doc_id := doc_id, original_url := url
              alt_text := alt_text, title := title, caption := caption
              context := context, media_type := "image/jpeg", file_path := ""
              width := none, height := none
              fetch_error := some ("Processing error: " ++ e) }
          index := idx, httpAttempts := n, sleeps := sleeps }
      | .ok (media_type, width, height) =>
        let ext := if media_type == "image/jpeg" then "jpg" else "png"
        let file_path := image_id ++ "." ++ ext
        { result :=
            { id := image_id, source_doc_id := doc_id, original_url := url
              alt_text := alt_text, title := title, caption := caption
              context := context, media_type := media_type
              file_path := file_path, width := some width
              height := some height, fetch_error := none }
          index := idx, httpAttempts := n, sleeps := sleeps }

/-- `ImageCache.get_images_for_documents`: the index's flattened images for
these ids, keeping those with falsy fetch_error and truthy file_path. -/
def get_images_for_documents (idx : ImageIndex) (doc_ids : List String) :
    List CachedImage :=
  (idx.get_images_for_docs doc_ids).filter
    (fun img => !optStrTruthy img.fetch_error && strTruthy img.file_path)

/-! ## Ingestion pipeline (`ingestion/pipeline.py`)

A parsed JSONL line is an `Except String Json` (`Except.error` =
`json.JSONDecodeError`).  JSON numbers are modelled as integers — no claim
involves fractional numeric fields. -/

/-- A parsed JSON value (Python's `json.loads` result). -/
inductive Json where
  | null
  | bool (b : Bool)
  | num (n : Int)
  | str (s : String)
  | arr (elems : List Json)
  | obj (fields : List (String × Json))

/-- Python truthiness of a decoded JSON value (`None`, `False`, `0`, `""`,
`[]`, `{}` are falsy). -/
def jsonTruthy : Json → Bool
  | .null => false
  | .bool b => b
  | .num n => n ≠ 0
  | .str s => s ≠ ""
  | .arr l => !l.isEmpty
  | .obj f => !f.isEmpty

/-- `a or b` on JSON values. -/
def jOr (a b : Json) : Json := if jsonTruthy a then a else b

/-- `record.get(k)` on a dict's fields: the value if the key is present,
else `None`.  (An explicit JSON `null` and an absent key behave alike in
everything the loader does with the result.) -/
def jGet (fields : List (String × Json)) (k : String) : Json :=
  match fields.find? (fun p => p.1 == k) with
  | some p => p.2
  | none => .null

/-- `record.get(k, d)`: presence-based default (unlike truthiness). -/
def jGetD (fields : List (String × Json)) (k : String) (d : Json) : Json :=
  match fields.find? (fun p => p.1 == k) with
  | some p => p.2
  | none => d

mutual
/-- Python `repr` of a decoded JSON value, as used inside f-string
formatting of containers. -/
def pyRepr : Json → String
  | .null => "None"
  | .bool b => if b then "True" else "False"
  | .num n => toString n
  | .str s => String.singleton (Char.ofNat 39) ++ s ++ String.singleton (Char.ofNat 39)
  | .arr l => "[" ++ pyReprList l ++ "]"
  | .obj f => "\x7b" ++ pyReprFields f ++ "\x7d"

/-- `repr` of list elements, comma-separated. -/
def pyReprList : List Json → String
  | [] => ""
  | [x] => pyRepr x
  | x :: xs => pyRepr x ++ ", " ++ pyReprList xs

/-- `repr` of dict items, comma-separated. -/
def pyReprFields : List (String × Json) → String
  | [] => ""
  | [(k, v)] => pyRepr (.str k) ++ ": " ++ pyRepr v
  | (k, v) :: xs => pyRepr (.str k) ++ ": " ++ pyRepr v ++ ", " ++ pyReprFields xs
end

/-- Python `str()` of a decoded JSON value, as performed by an f-string
(`f"{source_name}:{record.get(...)}"`). -/
def pyFormat : Json → String
  | .str s => s
  | v => pyRepr v

/-- `",".join(record["key_concepts"][:10])`: slicing works on lists and
strings (a string slices to its characters); `join` requires every element
to be a `str`, otherwise a `TypeError` escapes the loader. -/
def keyConceptsJoin : Json → Except String String
  | .arr l =>
    let sliced := l.take 10
    if sliced.all (fun v => match v with | .str _ => true | _ => false) then
      .ok (String.intercalate ","
        (sliced.map (fun v => match v with | .str s => s | _ => "")))
    else .error "TypeError: sequence item: expected str instance"
  | .str s => .ok (String.intercalate "," ((s.toList.take 10).map String.singleton))
  | _ => .error "TypeError: value is not subscriptable"

/-- A document handed to the vector store (`vectorstore/base.py`:
`Document`), with `metadata : dict` as an insertion-ordered association
list. -/
structure Document where
  id : String
  content : String
  metadata : List (String × Json) := []

/-- `doc_images[doc_id] = value`: Python dict assignment (replace in place
if the key exists, else append at the end). -/
def dictSet (l : List (String × Json)) (k : String) (v : Json) :
    List (String × Json) :=
  if l.any (fun p => p.1 == k) then
    l.map (fun p => if p.1 == k then (k, v) else p)
  else l ++ [(k, v)]

/-- One record's document, built by the loader's happy path (the record is a
dict and its content truthy after stripping). -/
def buildDocument (source : String) (n : Nat) (fields : List (String × Json))
    (content : String) : Except String Document := do
  let doc_id := source ++ ":" ++
    pyFormat (jGetD fields "article_id"
      (jGetD fields "term" (.str ("doc_" ++ toString n))))
  let base : List (String × Json) :=
    [("source", .str source),
     ("title", jOr (jGet fields "title") (jOr (jGet fields "term") (.str "Untitled"))),
     ("type", jGetD fields "type" (.str "article"))]
  let withChTitle := if jsonTruthy (jGet fields "chapter_title") then
      base ++ [("chapter_title", jGet fields "chapter_title")] else base
  let withChNum := if jsonTruthy (jGet fields "chapter_number") then
      withChTitle ++ [("chapter_number", jGet fields "chapter_number")] else withChTitle
  let withUrl := if jsonTruthy (jGet fields "url") then
      withChNum ++ [("url", jGet fields "url")] else withChNum
  let metadata ← if jsonTruthy (jGet fields "key_concepts") then do
      let joined ← keyConceptsJoin (jGet fields "key_concepts")
      pure (withUrl ++ [("key_concepts", Json.str joined)])
    else pure withUrl
  pure { id := doc_id, content := content, metadata := metadata }

/-- Python `str.strip()` (whitespace at both ends removed), implemented
structurally on the character list so it evaluates by kernel reduction. -/
def pyStrip (s : String) : String :=
  ⟨((s.data.dropWhile Char.isWhitespace).reverse.dropWhile
    Char.isWhitespace).reverse⟩

/-- `record.get("markdown_content") or record.get("definition") or ""`. -/
def contentOf (fields : List (String × Json)) : Json :=
  jOr (jGet fields "markdown_content") (jOr (jGet fields "definition") (.str ""))

/-- The document-loading loop of `ingest_jsonl` (lines 68–112): per line, a
`json.JSONDecodeError` is logged and the line skipped; any other exception
(e.g. the `AttributeError` from calling `.get` on a non-dict) is uncaught
and aborts the whole load, surfacing as `Except.error`.  Lines whose content
(`markdown_content or definition or ""`) strips to empty are skipped.
`imgs` accumulates `doc_images` in assignment order. -/
def loadLoop (source : String) (hasImageCache : Bool) :
    Nat → List (Except String Json) → List (String × Json) →
    Except String (List Document × List (String × Json))
  | _, [], imgs => .ok ([], imgs)
  | n, line :: rest, imgs =>
    match line with
    | .error _ => loadLoop source hasImageCache (n + 1) rest imgs
    | .ok record =>
      match record with
      | .obj fields =>
        match contentOf fields with
        | .str content =>
          if pyStrip content = "" then loadLoop source hasImageCache (n + 1) rest imgs
          else
            match buildDocument source n fields content with
            | .error e => .error e
            | .ok doc =>
              let imgs' := if jsonTruthy (jGet fields "images") && hasImageCache then
                  dictSet imgs doc.id (jGet fields "images")
                else imgs
              match loadLoop source hasImageCache (n + 1) rest imgs' with
              | .error e => .error e
              | .ok (docs, finalImgs) => .ok (doc :: docs, finalImgs)
        | _ => .error "AttributeError: object has no attribute strip"
      | _ => .error "AttributeError: object has no attribute get"

/-- Document loading for a whole file: lines enumerated from 1. -/
def load_documents (source : String) (hasImageCache : Bool)
    (lines : List (Except String Json)) :
    Except String (List Document × List (String × Json)) :=
  loadLoop source hasImageCache 1 lines []

/-- One observable action of the batch loop: an `embed_texts` call or an
`add_documents` call. -/
inductive IngestEvent (α : Type) where
  | embed (texts : List String)
  | add (batch : List Document) (embeddings : List α)

/-- The batch loop of `ingest_jsonl` (lines 135–150): process the documents
in consecutive slices `documents[i : i + batch_size]`; for each batch,
request embeddings for the batch's contents, then add the batch with those
embeddings; return the events in execution order and the total ingested.
The embedding provider is a pure oracle `provider : List String → List α`.
(`batch_size = 0` would raise `ValueError` in Python's `range`; the model
gives it the empty trace and it is excluded by hypothesis.) -/
def ingestBatches {α : Type} (provider : List String → List α)
    (bs : Nat) : List Document → List (IngestEvent α) × Nat
  | [] => ([], 0)
  | d :: ds =>
    if h : bs = 0 then ([], 0)
    else
      let docs := d :: ds
      let batch := docs.take bs
      let texts := batch.map (fun doc => doc.content)
      let embeddings := provider texts
      let rest := ingestBatches provider bs (docs.drop bs)
      (.embed texts :: .add batch embeddings :: rest.1, batch.length + rest.2)
termination_by docs => docs.length
decreasing_by
  simp only [List.length_drop, List.length_cons]
  omega

/-- Consecutive chunks of size `bs` (the partition induced by
`range(0, len(documents), batch_size)`), used to state what the batch loop
does. -/
def chunks {α : Type} (bs : Nat) : List α → List (List α)
  | [] => []
  | x :: xs =>
    if h : bs = 0 then []
    else
      let l := x :: xs
      l.take bs :: chunks bs (l.drop bs)
termination_by l => l.length
decreasing_by
  simp only [List.length_drop, List.length_cons]
  omega

/-! ## Helper lemmas -/

/-- A concrete cache configuration with the identity in place of the URL
hash (every theorem quantifies over the hash function; witnesses pick
this one). -/
def cfgAt (m : Nat) : ImageCacheModel :=
  { max_dimension := m, quality := 85, timeout := 30, hashUrl := fun u => u }

theorem optStrTruthy_false_iff (o : Option String) :
    optStrTruthy o = false ↔ o = none ∨ o = some "" := by
  cases o with
  | none => simp [optStrTruthy]
  | some s =>
    simp only [optStrTruthy, strTruthy]
    constructor
    · intro h
      right
      simpa using h
    · rintro (h | h)
      · exact absurd h (by simp)
      · simp at h
        simp [h]

theorem string_append_dot_ne (s t : String) : s ++ "." ++ t ≠ "" := by
  intro h
  have hlen : (s ++ "." ++ t).length = 0 := by rw [h]; rfl
  rw [String.length_append, String.length_append] at hlen
  have : (".").length = 1 := rfl
  omega

/-- Every entry `_find_cached` returns passed the `cacheHit` test: its id is
the looked-up id, its file_path is non-empty and its fetch_error falsy. -/
theorem find_cached_props {idx : ImageIndex} {i : String} {img : CachedImage}
    (h : _find_cached idx i = some img) :
    img.id = i ∧ img.file_path ≠ "" ∧ optStrTruthy img.fetch_error = false := by
  have hp := List.find?_some h
  simp only [cacheHit, Bool.and_eq_true, beq_iff_eq, Bool.not_eq_true',
    strTruthy, ne_eq, decide_eq_true_eq] at hp
  exact ⟨hp.1.1, hp.1.2, hp.2⟩

/-! ## Claim theorems -/

/-- The "exactly one of two shapes" invariant from §3 of the spec: file_path
non-empty with fetch_error null, or file_path empty with fetch_error
non-null — never both, never neither. -/
def exactlyOneShape (r : CachedImage) : Prop :=
  ((r.file_path ≠ "" ∧ r.fetch_error = none) ∨
    (r.file_path = "" ∧ r.fetch_error ≠ none)) ∧
  ¬((r.file_path ≠ "" ∧ r.fetch_error = none) ∧
    (r.file_path = "" ∧ r.fetch_error ≠ none))

/-- Cache-hit path of `fetch_and_cache`: the existing entry is copied with
this call's document id and descriptive fields, no network activity. -/
theorem fac_hit {cfg : ImageCacheModel} {idx : ImageIndex}
    {net : Nat → Except String FetchedPayload} {url d : String}
    {a t c x : Option String} {existing : CachedImage}
    (h : _find_cached idx (cfg.hashUrl url) = some existing) :
    fetch_and_cache cfg idx net url d a t c x =
      { result :=
          { id := cfg.hashUrl url, source_doc_id := d, original_url := url
            alt_text := a, title := t, caption := c, context := x
            media_type := existing.media_type, file_path := existing.file_path
            width := existing.width, height := existing.height
            fetch_error := none }
        index := idx, httpAttempts := 0, sleeps := [] } := by
  simp only [fetch_and_cache, h]

/-- Fetch-failure path of `fetch_and_cache`. -/
theorem fac_fetch_error {cfg : ImageCacheModel} {idx : ImageIndex}
    {net : Nat → Except String FetchedPayload} {url d : String}
    {a t c x : Option String} {e : String} {n : Nat} {ss : List Nat}
    (h1 : _find_cached idx (cfg.hashUrl url) = none)
    (h2 : retryFetch net 0 2 = (.error e, n, ss)) :
    fetch_and_cache cfg idx net url d a t c x =
      { result :=
          { id := cfg.hashUrl url, source_doc_id := d, original_url := url
            alt_text := a, title := t, caption := c, context := x
            media_type := "image/jpeg", file_path := ""
            width := none, height := none, fetch_error := some e }
        index := idx, httpAttempts := n, sleeps := ss } := by
  simp only [fetch_and_cache, h1, h2]

/-- Transform-failure path of `fetch_and_cache`. -/
theorem fac_process_error {cfg : ImageCacheModel} {idx : ImageIndex}
    {net : Nat → Except String FetchedPayload} {url d : String}
    {a t c x : Option String} {payload : FetchedPayload} {e : String}
    {n : Nat} {ss : List Nat}
    (h1 : _find_cached idx (cfg.hashUrl url) = none)
    (h2 : retryFetch net 0 2 = (.ok payload, n, ss))
    (h3 : _process_image cfg payload.data payload.content_type = .error e) :
    fetch_and_cache cfg idx net url d a t c x =
      { result :=
          { id := cfg.hashUrl url, source_doc_id := d, original_url := url
            alt_text := a, title := t, caption := c, context := x
            media_type := "image/jpeg", file_path := ""
            width := none, height := none
            fetch_error := some ("Processing error: " ++ e) }
        index := idx, httpAttempts := n, sleeps := ss } := by
  simp only [fetch_and_cache, h1, h2, h3]

/-- Success path of `fetch_and_cache`. -/
theorem fac_success {cfg : ImageCacheModel} {idx : ImageIndex}
    {net : Nat → Except String FetchedPayload} {url d : String}
    {a t c x : Option String} {payload : FetchedPayload} {mt : String}
    {w hh : Nat} {n : Nat} {ss : List Nat}
    (h1 : _find_cached idx (cfg.hashUrl url) = none)
    (h2 : retryFetch net 0 2 = (.ok payload, n, ss))
    (h3 : _process_image cfg payload.data payload.content_type = .ok (mt, w, hh)) :
    fetch_and_cache cfg idx net url d a t c x =
      { result :=
          { id := cfg.hashUrl url, source_doc_id := d, original_url := url
            alt_text := a, title := t, caption := c, context := x
            media_type := mt
            file_path := cfg.hashUrl url ++ "." ++
              (if mt == "image/jpeg" then "jpg" else "png")
            width := some w, height := some hh, fetch_error := none }
        index := idx, httpAttempts := n, sleeps := ss } := by
  simp only [fetch_and_cache, h1, h2, h3]

/-- C1.  The code's `has_transparency` is mode-based: an RGBA image is
counted as transparent regardless of its pixels, so the branch
`img.mode == "RGBA" and not has_transparency` is unreachable and a fully
opaque RGBA image is encoded as PNG — against both the spec's transparency
law and the code's own comment ("Convert RGBA to RGB if no transparency
(allows JPEG conversion)").  At the failing input, a 10×10 all-opaque RGBA
raster, the output media_type is `image/png` although the image has no
genuine transparency. -/
theorem C1_opaque_rgba_is_encoded_png :
    genuineTransparency ⟨PILMode.RGBA, false, false, 10, 10⟩ = false ∧
    _process_image (cfgAt 1024) (some ⟨PILMode.RGBA, false, false, 10, 10⟩)
      "image/png" = .ok ("image/png", 10, 10) ∧
    "image/png" ≠ "image/jpeg" := by
  refine ⟨rfl, rfl, by decide⟩

/-- C3.  Every `CachedImage` returned by `fetch_and_cache` — cache hit,
fetch failure, transform failure or success — satisfies exactly one of
(file_path non-empty ∧ fetch_error null) and (file_path empty ∧ fetch_error
non-null). -/
theorem C3_result_shape_invariant (cfg : ImageCacheModel) (idx : ImageIndex)
    (net : Nat → Except String FetchedPayload) (url doc_id : String)
    (a t c x : Option String) :
    exactlyOneShape (fetch_and_cache cfg idx net url doc_id a t c x).result := by
  constructor
  · rcases hfind : _find_cached idx (cfg.hashUrl url) with _ | existing
    · rcases hr : retryFetch net 0 2 with ⟨res, nn, ss⟩
      rcases res with e | payload
      · rw [fac_fetch_error hfind hr]
        exact Or.inr ⟨rfl, by simp⟩
      · rcases hp : _process_image cfg payload.data payload.content_type with e | ⟨mt, w, h⟩
        · rw [fac_process_error hfind hr hp]
          exact Or.inr ⟨rfl, by simp⟩
        · rw [fac_success hfind hr hp]
          exact Or.inl ⟨string_append_dot_ne _ _, rfl⟩
    · rw [fac_hit hfind]
      exact Or.inl ⟨(find_cached_props hfind).2.1, rfl⟩
  · rintro ⟨⟨h1, -⟩, ⟨h2, -⟩⟩
    exact h1 h2

/-- C10, counterexample.  An index entry whose `fetch_error` is the empty
string is non-null ("set") yet falsy in Python, so the filter
`not img.fetch_error and img.file_path` lets it through: the claim that no
returned entry has fetch_error set fails on this one-entry index. -/
def badEmptyErrorImage : CachedImage :=
  { id := "i", source_doc_id := "d", original_url := "u"
    media_type := "image/jpeg", file_path := "i.jpg", fetch_error := some "" }

/-- C10 as stated is false: on the index `{"d": [badEmptyErrorImage]}` the
call returns the entry although its fetch_error is set (to `""`). -/
theorem C10_counterexample :
    get_images_for_documents ⟨[("d", [badEmptyErrorImage])]⟩ ["d"]
        = [badEmptyErrorImage] ∧
      badEmptyErrorImage.fetch_error ≠ none ∧
      ¬(∀ img ∈ get_images_for_documents ⟨[("d", [badEmptyErrorImage])]⟩ ["d"],
        img.fetch_error = none ∧ img.file_path ≠ "") := by
  refine ⟨by decide, by decide, fun h => ?_⟩
  have := h badEmptyErrorImage (by decide)
  exact absurd this.1 (by decide)

/-- C10, amended.  `get_images_for_documents` returns exactly the images of
the given ids, flattened in id-then-insertion order, with the non-passing
entries removed — i.e. the Python-truthiness filter applied to the
flattening (so in particular an order-preserving subsequence of it); an
entry is returned if and only if it lies among those ids' flattened images,
its file_path is non-empty, and its fetch_error is falsy (null or the empty
string).  Hence no returned entry has an empty file_path or a truthy
(non-null, non-empty) fetch_error, while an entry whose fetch_error is the
empty string — non-null, i.e. "set" — does pass the filter. -/
theorem C10_filtering (idx : ImageIndex) (ids : List String) :
    get_images_for_documents idx ids =
      (idx.get_images_for_docs ids).filter
        (fun img => !optStrTruthy img.fetch_error && strTruthy img.file_path) ∧
    (get_images_for_documents idx ids).Sublist (idx.get_images_for_docs ids) ∧
    ∀ img, img ∈ get_images_for_documents idx ids ↔
      img ∈ idx.get_images_for_docs ids ∧ img.file_path ≠ "" ∧
        (img.fetch_error = none ∨ img.fetch_error = some "") := by
  refine ⟨rfl, List.filter_sublist _, ?_⟩
  intro img
  rw [get_images_for_documents, List.mem_filter]
  constructor
  · rintro ⟨hmem, hcond⟩
    simp only [Bool.and_eq_true, Bool.not_eq_true'] at hcond
    refine ⟨hmem, ?_, (optStrTruthy_false_iff _).mp hcond.1⟩
    have := hcond.2
    simpa [strTruthy] using this
  · rintro ⟨hmem, hfp, hfe⟩
    refine ⟨hmem, ?_⟩
    simp only [Bool.and_eq_true, Bool.not_eq_true']
    refine ⟨(optStrTruthy_false_iff _).mpr hfe, ?_⟩
    simpa [strTruthy] using hfp

/-- C6, counterexample.  The resize arithmetic runs in IEEE-754 doubles and
`int()` truncates: for a 161×80 image with max dimension 100 the code
computes `int(161 * (100/161)) = 99`, so the output is 99×49 and
`max(outW, outH) = 99 ≠ 100` — the claimed law `max(outW,outH) = M` fails
(CPython: `161 * (100/161) == 99.99999999999999`). -/
theorem C6_counterexample :
    _process_image (cfgAt 100) (some ⟨PILMode.RGB, false, false, 161, 80⟩) "x"
      = .ok ("image/jpeg", 99, 49) ∧ max 99 49 ≠ 100 := by
  exact ⟨by decide, by decide⟩

/-- The `(width, height)` part of a transform outcome. -/
def outputDims (r : Except String (String × Nat × Nat)) :
    Except String (Nat × Nat) :=
  r.map (fun p => (p.2.1, p.2.2))

/-- C6, amended.  If `max(W,H) ≤ M` the output keeps size (W,H) (never
upscales); otherwise both axes are the double-precision products
`int(axis * min(M/W, M/H))`, which can land one below `M` under float
truncation; the 200×100 image with max dimension 100 does resize to exactly
100×50. -/
theorem C6_resize_law (cfg : ImageCacheModel) (img : ModelImage) (ct : String) :
    (max img.width img.height ≤ cfg.max_dimension →
      outputDims (_process_image cfg (some img) ct) = .ok (img.width, img.height)) ∧
    (cfg.max_dimension < max img.width img.height →
      outputDims (_process_image cfg (some img) ct) =
        .ok (pyInt (fmul img.width (minF (fdiv cfg.max_dimension img.width)
            (fdiv cfg.max_dimension img.height))),
          pyInt (fmul img.height (minF (fdiv cfg.max_dimension img.width)
            (fdiv cfg.max_dimension img.height))))) ∧
    _process_image (cfgAt 100) (some ⟨PILMode.RGB, false, false, 200, 100⟩) "x"
      = .ok ("image/jpeg", 100, 50) := by
  refine ⟨?_, ?_, by decide⟩
  · intro hle
    have hcond : ¬(cfg.max_dimension < img.width ∨ cfg.max_dimension < img.height) := by
      rw [max_le_iff] at hle
      omega
    simp only [outputDims, _process_image]
    rw [if_neg hcond]
    rfl
  · intro hgt
    have hcond : cfg.max_dimension < img.width ∨ cfg.max_dimension < img.height :=
      lt_max_iff.mp hgt
    simp only [outputDims, _process_image]
    rw [if_pos hcond]
    rfl

/-- Witness for C6: a 150×80 image under bound 1024 is left at 150×80, and
a 300×150 image under bound 100 is resized to the double-precision
truncated products. -/
theorem C6_resize_law_witness :
    (max 150 80 ≤ (cfgAt 1024).max_dimension ∧
      outputDims (_process_image (cfgAt 1024)
        (some ⟨PILMode.RGB, false, false, 150, 80⟩) "x") = .ok (150, 80)) ∧
    ((cfgAt 100).max_dimension < max 300 150 ∧
      outputDims (_process_image (cfgAt 100)
          (some ⟨PILMode.RGB, false, false, 300, 150⟩) "x")
        = .ok (pyInt (fmul 300 (minF (fdiv 100 300) (fdiv 100 150))),
            pyInt (fmul 150 (minF (fdiv 100 300) (fdiv 100 150))))) := by
  constructor
  · exact ⟨by decide,
      (C6_resize_law (cfgAt 1024) ⟨PILMode.RGB, false, false, 150, 80⟩ "x").1 (by decide)⟩
  · exact ⟨by decide,
      (C6_resize_law (cfgAt 100) ⟨PILMode.RGB, false, false, 300, 150⟩ "x").2.1 (by decide)⟩

/-- Full characterization of the 3-attempt retry loop, by the outcome of
each HTTP attempt: success on attempt k makes k+1 attempts with sleeps
`2^0 … 2^(k-1)`; total failure makes 3 attempts, sleeps `[1, 2]`, and
reports the final attempt's error. -/
theorem retryFetch02_cases (net : Nat → Except String FetchedPayload) :
    (∀ p, net 0 = .ok p → retryFetch net 0 2 = (.ok p, 1, [])) ∧
    (∀ e0 p, net 0 = .error e0 → net 1 = .ok p →
      retryFetch net 0 2 = (.ok p, 2, [1])) ∧
    (∀ e0 e1 p, net 0 = .error e0 → net 1 = .error e1 → net 2 = .ok p →
      retryFetch net 0 2 = (.ok p, 3, [1, 2])) ∧
    (∀ e0 e1 e2, net 0 = .error e0 → net 1 = .error e1 → net 2 = .error e2 →
      retryFetch net 0 2 = (.error e2, 3, [1, 2])) := by
  refine ⟨?_, ?_, ?_, ?_⟩ <;> intros <;> simp [retryFetch, *]

/-- The retry loop always performs at least one HTTP attempt. -/
theorem retryFetch_attempts_pos (net : Nat → Except String FetchedPayload)
    (a f : Nat) : 1 ≤ (retryFetch net a f).2.1 := by
  rcases hn : net a with e | p <;> rcases f with _ | f <;> simp [retryFetch, hn]

/-- On the fetch path (cache miss), the call's attempt count and sleeps are
those of the retry loop, whatever the processing outcome. -/
theorem fac_attempts_sleeps {cfg : ImageCacheModel} {idx : ImageIndex}
    {net : Nat → Except String FetchedPayload} {url d : String}
    {a t c x : Option String} {res : Except String FetchedPayload}
    {n : Nat} {ss : List Nat}
    (hmiss : _find_cached idx (cfg.hashUrl url) = none)
    (hrf : retryFetch net 0 2 = (res, n, ss)) :
    (fetch_and_cache cfg idx net url d a t c x).httpAttempts = n ∧
    (fetch_and_cache cfg idx net url d a t c x).sleeps = ss := by
  rcases res with e | payload
  · rw [fac_fetch_error hmiss hrf]
    exact ⟨rfl, rfl⟩
  · rcases hp : _process_image cfg payload.data payload.content_type with e | ⟨mt, w, hh⟩
    · rw [fac_process_error hmiss hrf hp]
      exact ⟨rfl, rfl⟩
    · rw [fac_success hmiss hrf hp]
      exact ⟨rfl, rfl⟩

/-- C4.  On a cache miss, `fetch_and_cache` makes at most 3 HTTP attempts,
sleeps `2^attempt` seconds after each non-final failed attempt (attempt
numbering from 0, so the sleeps are `2^0 … 2^(attempts-2)` in order), and
when all 3 attempts fail it returns — rather than raises — a `CachedImage`
with fetch_error the final failure, file_path empty and width/height
null. -/
theorem C4_bounded_retry_and_failure (cfg : ImageCacheModel) (idx : ImageIndex)
    (net : Nat → Except String FetchedPayload) (url d : String)
    (a t c x : Option String)
    (hmiss : _find_cached idx (cfg.hashUrl url) = none) :
    (fetch_and_cache cfg idx net url d a t c x).httpAttempts ≤ 3 ∧
    (fetch_and_cache cfg idx net url d a t c x).sleeps =
      (List.range ((fetch_and_cache cfg idx net url d a t c x).httpAttempts - 1)).map
        (fun i => 2 ^ i) ∧
    (∀ e0 e1 e2, net 0 = .error e0 → net 1 = .error e1 → net 2 = .error e2 →
      fetch_and_cache cfg idx net url d a t c x =
        { result :=
            { id := cfg.hashUrl url, source_doc_id := d, original_url := url
              alt_text := a, title := t, caption := c, context := x
              media_type := "image/jpeg", file_path := ""
              width := none, height := none, fetch_error := some e2 }
          index := idx, httpAttempts := 3, sleeps := [1, 2] }) := by
  obtain ⟨hok0, hok1, hok2, herr⟩ := retryFetch02_cases net
  rcases h0 : net 0 with e0 | p0
  · rcases h1 : net 1 with e1 | p1
    · rcases h2 : net 2 with e2 | p2
      · have hrf := herr e0 e1 e2 h0 h1 h2
        obtain ⟨ha, hs⟩ := fac_attempts_sleeps hmiss hrf
        refine ⟨by rw [ha], ?_, ?_⟩
        · rw [ha, hs]
          decide
        · intro f0 f1 f2 g0 g1 g2
          injection g2 with hg
          subst hg
          exact fac_fetch_error hmiss hrf
      · have hrf := hok2 e0 e1 p2 h0 h1 h2
        obtain ⟨ha, hs⟩ := fac_attempts_sleeps hmiss hrf
        refine ⟨by rw [ha], ?_, ?_⟩
        · rw [ha, hs]
          decide
        · intro f0 f1 f2 g0 g1 g2
          exact absurd g2 (by simp)
    · have hrf := hok1 e0 p1 h0 h1
      obtain ⟨ha, hs⟩ := fac_attempts_sleeps hmiss hrf
      refine ⟨by rw [ha]; decide, ?_, ?_⟩
      · rw [ha, hs]
        decide
      · intro f0 f1 f2 g0 g1 g2
        exact absurd g1 (by simp)
  · have hrf := hok0 p0 h0
    obtain ⟨ha, hs⟩ := fac_attempts_sleeps hmiss hrf
    refine ⟨by rw [ha]; decide, ?_, ?_⟩
    · rw [ha, hs]
      decide
    · intro f0 f1 f2 g0 g1 g2
      exact absurd g0 (by simp)

/-- Witness for C4: against a network answering 404 to every attempt and an
empty index, the call makes 3 attempts, sleeps 1 s then 2 s, and returns the
failure-shaped record with the last error. -/
theorem C4_bounded_retry_and_failure_witness :
    _find_cached ⟨[]⟩ ((cfgAt 1024).hashUrl "http://e/x.png") = none ∧
    (fetch_and_cache (cfgAt 1024) ⟨[]⟩ (fun _ => .error "404") "http://e/x.png"
      "doc1" none none none none).httpAttempts ≤ 3 ∧
    (fetch_and_cache (cfgAt 1024) ⟨[]⟩ (fun _ => .error "404") "http://e/x.png"
        "doc1" none none none none).result.fetch_error = some "404" ∧
    (fetch_and_cache (cfgAt 1024) ⟨[]⟩ (fun _ => .error "404") "http://e/x.png"
        "doc1" none none none none).result.file_path = "" ∧
    (fetch_and_cache (cfgAt 1024) ⟨[]⟩ (fun _ => .error "404") "http://e/x.png"
        "doc1" none none none none).sleeps = [1, 2] := by
  have h := C4_bounded_retry_and_failure (cfgAt 1024) ⟨[]⟩ (fun _ => .error "404")
    "http://e/x.png" "doc1" none none none none (by decide)
  have h3 := h.2.2 "404" "404" "404" rfl rfl rfl
  refine ⟨by decide, h.1, ?_, ?_, ?_⟩ <;> rw [h3]

/-- C5.  `fetch_and_cache` never adds to or mutates the index on any path —
entries are created only by the caller via `ImageIndex.add_image` — so for
an uncached URL a second call performs a second network fetch when nothing
was added to the index in between. -/
theorem C5_no_index_mutation (cfg : ImageCacheModel) (idx : ImageIndex)
    (net net2 : Nat → Except String FetchedPayload) (url d1 d2 : String)
    (a1 t1 c1 x1 a2 t2 c2 x2 : Option String) :
    (fetch_and_cache cfg idx net url d1 a1 t1 c1 x1).index = idx ∧
    (_find_cached idx (cfg.hashUrl url) = none →
      1 ≤ (fetch_and_cache cfg idx net url d1 a1 t1 c1 x1).httpAttempts ∧
      1 ≤ (fetch_and_cache cfg
            (fetch_and_cache cfg idx net url d1 a1 t1 c1 x1).index
            net2 url d2 a2 t2 c2 x2).httpAttempts) := by
  have frame : ∀ (nf : Nat → Except String FetchedPayload) (dd : String)
      (aa tt cc xx : Option String),
      (fetch_and_cache cfg idx nf url dd aa tt cc xx).index = idx := by
    intro nf dd aa tt cc xx
    rcases hfind : _find_cached idx (cfg.hashUrl url) with _ | existing
    · rcases hrf : retryFetch nf 0 2 with ⟨res, n, ss⟩
      rcases res with e | payload
      · rw [fac_fetch_error hfind hrf]
      · rcases hp : _process_image cfg payload.data payload.content_type with e | ⟨mt, w, hh⟩
        · rw [fac_process_error hfind hrf hp]
        · rw [fac_success hfind hrf hp]
    · rw [fac_hit hfind]
  have attempts : ∀ (nf : Nat → Except String FetchedPayload) (dd : String)
      (aa tt cc xx : Option String),
      _find_cached idx (cfg.hashUrl url) = none →
      1 ≤ (fetch_and_cache cfg idx nf url dd aa tt cc xx).httpAttempts := by
    intro nf dd aa tt cc xx hmiss
    rcases hrf : retryFetch nf 0 2 with ⟨res, n, ss⟩
    have hpos := retryFetch_attempts_pos nf 0 2
    rw [hrf] at hpos
    have := (@fac_attempts_sleeps cfg idx nf url dd aa tt cc xx res n ss hmiss hrf).1
    rw [this]
    exact hpos
  refine ⟨frame net d1 a1 t1 c1 x1, fun hmiss => ⟨attempts net d1 a1 t1 c1 x1 hmiss, ?_⟩⟩
  rw [frame net d1 a1 t1 c1 x1]
  exact attempts net2 d2 a2 t2 c2 x2 hmiss

/-- Witness for C5: with an empty index and a network that always answers,
the call leaves the index empty and a repeat call fetches again. -/
theorem C5_no_index_mutation_witness :
    (fetch_and_cache (cfgAt 1024) ⟨[]⟩
      (fun _ => .ok ⟨some ⟨PILMode.RGB, false, false, 10, 10⟩, "image/jpeg"⟩)
      "http://e/a.png" "d1" none none none none).index = (⟨[]⟩ : ImageIndex) ∧
    _find_cached ⟨[]⟩ ((cfgAt 1024).hashUrl "http://e/a.png") = none ∧
    1 ≤ (fetch_and_cache (cfgAt 1024)
          (fetch_and_cache (cfgAt 1024) ⟨[]⟩
            (fun _ => .ok ⟨some ⟨PILMode.RGB, false, false, 10, 10⟩, "image/jpeg"⟩)
            "http://e/a.png" "d1" none none none none).index
          (fun _ => .ok ⟨some ⟨PILMode.RGB, false, false, 10, 10⟩, "image/jpeg"⟩)
          "http://e/a.png" "d2" none none none none).httpAttempts := by
  have h := C5_no_index_mutation (cfgAt 1024) ⟨[]⟩
    (fun _ => .ok ⟨some ⟨PILMode.RGB, false, false, 10, 10⟩, "image/jpeg"⟩)
    (fun _ => .ok ⟨some ⟨PILMode.RGB, false, false, 10, 10⟩, "image/jpeg"⟩)
    "http://e/a.png" "d1" "d2" none none none none none none none none
  exact ⟨h.1, by decide, (h.2 (by decide)).2⟩

/-- Adding a matching image to an index in which the id was unmatched makes
`_find_cached` return exactly that image (whichever document it is filed
under). -/
theorem find_cached_add_of_miss {idx : ImageIndex} {i d : String}
    {img : CachedImage} (hmiss : _find_cached idx i = none)
    (hhit : cacheHit i img = true) :
    _find_cached (idx.add_image d img) i = some img := by
  rcases idx with ⟨l⟩
  unfold _find_cached ImageIndex.allImages at hmiss ⊢
  unfold ImageIndex.add_image
  simp only
  split
  case isTrue hany =>
    induction l with
    | nil => simp at hany
    | cons hd tl ih =>
      obtain ⟨k, imgs⟩ := hd
      simp only [List.flatMap_cons, List.find?_append, Option.or_eq_none] at hmiss
      obtain ⟨hhead, htail⟩ := hmiss
      simp only [List.map_cons, List.flatMap_cons, List.find?_append]
      by_cases hk : (k == d) = true
      · simp only [hk, if_pos]
        have himgs : List.find? (cacheHit i) imgs = none := hhead
        have hsingle : List.find? (cacheHit i) [img] = some img :=
          List.find?_cons_of_pos _ hhit
        simp [List.find?_append, himgs, hsingle]
      · simp only [hk]
        simp only [Bool.false_eq_true, if_false, hhead, Option.none_or]
        simp only [List.any_cons, hk, Bool.false_or] at hany
        exact ih htail hany
  case isFalse hany =>
    simp only [List.flatMap_append, List.find?_append, hmiss, Option.none_or,
      List.flatMap_cons, List.flatMap_nil, List.append_nil]
    exact List.find?_cons_of_pos _ hhit

/-- C2 as stated is false: `fetch_and_cache` does not record its result, so
with nothing added to the index between the calls, a second call on the
same URL fetches again — two HTTP attempts in total, not one. -/
theorem C2_counterexample :
    (fetch_and_cache (cfgAt 1024) ⟨[]⟩
      (fun _ => .ok ⟨some ⟨PILMode.RGB, false, false, 10, 10⟩, "image/jpeg"⟩)
      "http://e/a.png" "d1" none none none none).httpAttempts +
    (fetch_and_cache (cfgAt 1024)
      (fetch_and_cache (cfgAt 1024) ⟨[]⟩
        (fun _ => .ok ⟨some ⟨PILMode.RGB, false, false, 10, 10⟩, "image/jpeg"⟩)
        "http://e/a.png" "d1" none none none none).index
      (fun _ => .ok ⟨some ⟨PILMode.RGB, false, false, 10, 10⟩, "image/jpeg"⟩)
      "http://e/a.png" "d2" none none none none).httpAttempts = 2 ∧
    (2 : Nat) ≠ 1 := by
  exact ⟨by decide, by decide⟩

/-- C2, amended.  If the first call's successful result is added to the
index (as the ingestion pipeline does) before the second call on the same
URL, then the first call fetched (≥ 1 attempt), the second performs no
network call and no sleep, and the second result reuses the first's
file_path/media_type/width/height while carrying the second call's doc id
and descriptive fields, with fetch_error null. -/
theorem C2_idempotence_after_add (cfg : ImageCacheModel) (idx : ImageIndex)
    (net net2 : Nat → Except String FetchedPayload) (url d1 d2 dAdd : String)
    (a1 t1 c1 x1 a2 t2 c2 x2 : Option String)
    (hmiss : _find_cached idx (cfg.hashUrl url) = none)
    (hok : (fetch_and_cache cfg idx net url d1 a1 t1 c1 x1).result.fetch_error = none) :
    1 ≤ (fetch_and_cache cfg idx net url d1 a1 t1 c1 x1).httpAttempts ∧
    (fetch_and_cache cfg
        (((fetch_and_cache cfg idx net url d1 a1 t1 c1 x1).index).add_image dAdd
          (fetch_and_cache cfg idx net url d1 a1 t1 c1 x1).result)
        net2 url d2 a2 t2 c2 x2) =
      { result :=
          { id := cfg.hashUrl url, source_doc_id := d2, original_url := url
            alt_text := a2, title := t2, caption := c2, context := x2
            media_type := (fetch_and_cache cfg idx net url d1 a1 t1 c1 x1).result.media_type
            file_path := (fetch_and_cache cfg idx net url d1 a1 t1 c1 x1).result.file_path
            width := (fetch_and_cache cfg idx net url d1 a1 t1 c1 x1).result.width
            height := (fetch_and_cache cfg idx net url d1 a1 t1 c1 x1).result.height
            fetch_error := none }
        index := ((fetch_and_cache cfg idx net url d1 a1 t1 c1 x1).index).add_image dAdd
          (fetch_and_cache cfg idx net url d1 a1 t1 c1 x1).result
        httpAttempts := 0, sleeps := [] } := by
  rcases hrf : retryFetch net 0 2 with ⟨res, n, ss⟩
  have hpos := retryFetch_attempts_pos net 0 2
  rw [hrf] at hpos
  rcases res with e | payload
  · rw [fac_fetch_error hmiss hrf] at hok
    exact absurd hok (by simp)
  · rcases hp : _process_image cfg payload.data payload.content_type with e | ⟨mt, w, hh⟩
    · rw [fac_process_error hmiss hrf hp] at hok
      exact absurd hok (by simp)
    · have heq := @fac_success cfg idx net url d1 a1 t1 c1 x1 payload mt w hh n ss hmiss hrf hp
      constructor
      · rw [heq]
        exact hpos
      · have hhit : cacheHit (cfg.hashUrl url)
            (fetch_and_cache cfg idx net url d1 a1 t1 c1 x1).result = true := by
          rw [heq]
          simp only [cacheHit, strTruthy, optStrTruthy, Bool.and_eq_true, beq_self_eq_true,
            true_and, Bool.not_eq_true', decide_eq_false_iff_not, ne_eq]
          refine ⟨?_, trivial⟩
          simpa using string_append_dot_ne (cfg.hashUrl url) _
        have hidx : (fetch_and_cache cfg idx net url d1 a1 t1 c1 x1).index = idx := by
          rw [heq]
        have hmiss2 : _find_cached (fetch_and_cache cfg idx net url d1 a1 t1 c1 x1).index
            (cfg.hashUrl url) = none := by
          rw [hidx]
          exact hmiss
        have hfind2 := @find_cached_add_of_miss
          (fetch_and_cache cfg idx net url d1 a1 t1 c1 x1).index
          (cfg.hashUrl url) dAdd
          (fetch_and_cache cfg idx net url d1 a1 t1 c1 x1).result hmiss2 hhit
        rw [fac_hit hfind2]

/-- Witness for C2: a concrete success on an empty index; after the add the
second call makes 0 attempts and reuses the stored entry. -/
theorem C2_idempotence_after_add_witness :
    _find_cached ⟨[]⟩ ((cfgAt 1024).hashUrl "http://e/a.png") = none ∧
    (fetch_and_cache (cfgAt 1024) ⟨[]⟩
      (fun _ => .ok ⟨some ⟨PILMode.RGB, false, false, 10, 10⟩, "image/jpeg"⟩)
      "http://e/a.png" "d1" none none none none).result.fetch_error = none ∧
    (fetch_and_cache (cfgAt 1024)
        (((fetch_and_cache (cfgAt 1024) ⟨[]⟩
            (fun _ => .ok ⟨some ⟨PILMode.RGB, false, false, 10, 10⟩, "image/jpeg"⟩)
            "http://e/a.png" "d1" none none none none).index).add_image "d1"
          (fetch_and_cache (cfgAt 1024) ⟨[]⟩
            (fun _ => .ok ⟨some ⟨PILMode.RGB, false, false, 10, 10⟩, "image/jpeg"⟩)
            "http://e/a.png" "d1" none none none none).result)
        (fun _ => .error "offline") "http://e/a.png" "d2" none none none
        none).httpAttempts = 0 := by
  have h := C2_idempotence_after_add (cfgAt 1024) ⟨[]⟩
    (fun _ => .ok ⟨some ⟨PILMode.RGB, false, false, 10, 10⟩, "image/jpeg"⟩)
    (fun _ => .error "offline") "http://e/a.png" "d1" "d2" "d1"
    none none none none none none none none (by decide) (by decide)
  refine ⟨by decide, by decide, ?_⟩
  rw [h.2]

/-- Boolean discriminator for embed events. -/
def IngestEvent.isEmbed {α : Type} : IngestEvent α → Bool
  | .embed _ => true
  | _ => false

/-- Boolean discriminator for store-add events. -/
def IngestEvent.isAdd {α : Type} : IngestEvent α → Bool
  | .add _ _ => true
  | _ => false

theorem chunks_nil {α : Type} (bs : Nat) : chunks bs ([] : List α) = [] := by
  simp [chunks]

theorem chunks_cons {α : Type} {bs : Nat} (hbs : bs ≠ 0) (x : α) (xs : List α) :
    chunks bs (x :: xs) = (x :: xs).take bs :: chunks bs ((x :: xs).drop bs) := by
  rw [chunks]
  simp [hbs]

theorem ingestBatches_nil {α : Type} (provider : List String → List α) (bs : Nat) :
    ingestBatches provider bs ([] : List Document) = ([], 0) := by
  simp [ingestBatches]

theorem ingestBatches_cons {α : Type} (provider : List String → List α)
    {bs : Nat} (hbs : bs ≠ 0) (d : Document) (ds : List Document) :
    ingestBatches provider bs (d :: ds) =
      ((IngestEvent.embed ((d :: ds).take bs |>.map (fun doc => doc.content))) ::
        (IngestEvent.add ((d :: ds).take bs)
          (provider ((d :: ds).take bs |>.map (fun doc => doc.content)))) ::
        (ingestBatches provider bs ((d :: ds).drop bs)).1,
        ((d :: ds).take bs).length + (ingestBatches provider bs ((d :: ds).drop bs)).2) := by
  rw [ingestBatches]
  simp [hbs]

/-- The chunks of a list concatenate back to the list. -/
theorem chunks_flatten {α : Type} {bs : Nat} (hbs : bs ≠ 0) (l : List α) :
    (chunks bs l).flatten = l := by
  induction l using chunks.induct bs with
  | case1 => simp [chunks_nil]
  | case2 x xs h => exact absurd h hbs
  | case3 x xs h l' ih =>
    rw [chunks_cons hbs]
    simp only [List.flatten_cons, ih]
    exact List.take_append_drop bs (x :: xs)

/-- Every chunk is non-empty and no longer than the batch size. -/
theorem chunks_mem_shape {α : Type} {bs : Nat} (hbs : bs ≠ 0) (l : List α) :
    ∀ b ∈ chunks bs l, b ≠ [] ∧ b.length ≤ bs := by
  induction l using chunks.induct bs with
  | case1 => simp [chunks_nil]
  | case2 x xs h => exact absurd h hbs
  | case3 x xs h l' ih =>
    rw [chunks_cons hbs]
    intro b hb
    rcases List.mem_cons.mp hb with hhd | htl
    · subst hhd
      constructor
      · rcases bs with _ | bs
        · exact absurd rfl hbs
        · simp [List.take_cons]
      · simp [List.length_take]
    · exact ih b htl

/-- The batch loop's event trace is exactly: for each consecutive chunk, an
embed of its contents followed by an add of the chunk with the provider's
embeddings; and the reported total is the document count. -/
theorem ingestBatches_spec {α : Type} (provider : List String → List α)
    {bs : Nat} (hbs : bs ≠ 0) (docs : List Document) :
    (ingestBatches provider bs docs).1 =
      (chunks bs docs).flatMap (fun b =>
        [IngestEvent.embed (b.map (fun doc => doc.content)),
         IngestEvent.add b (provider (b.map (fun doc => doc.content)))]) ∧
    (ingestBatches provider bs docs).2 = docs.length := by
  induction docs using chunks.induct bs with
  | case1 => simp [chunks_nil, ingestBatches_nil]
  | case2 x xs h => exact absurd h hbs
  | case3 x xs h l' ih =>
    have hl' : l' = x :: xs := rfl
    rw [hl'] at ih
    rw [ingestBatches_cons provider hbs, chunks_cons hbs]
    simp only [List.flatMap_cons, List.cons_append, List.nil_append]
    refine ⟨by rw [ih.1], ?_⟩
    simp only [ih.2, List.length_take, List.length_drop, List.length_cons]
    omega

theorem isEmbed_embed {α : Type} (ts : List String) :
    (IngestEvent.embed ts : IngestEvent α).isEmbed = true := rfl

theorem isEmbed_add {α : Type} (b : List Document) (e : List α) :
    (IngestEvent.add b e).isEmbed = false := rfl

theorem isAdd_embed {α : Type} (ts : List String) :
    (IngestEvent.embed ts : IngestEvent α).isAdd = false := rfl

theorem isAdd_add {α : Type} (b : List Document) (e : List α) :
    (IngestEvent.add b e).isAdd = true := rfl

/-- Counting embeds and adds in a trace of embed/add pairs. -/
theorem countP_pair_trace {α : Type} (f : List Document → List String)
    (g : List Document → List α) (L : List (List Document)) :
    (L.flatMap (fun b => [IngestEvent.embed (f b), IngestEvent.add b (g b)])).countP
        (fun e => e.isEmbed) = L.length ∧
    (L.flatMap (fun b => [IngestEvent.embed (f b), IngestEvent.add b (g b)])).countP
        (fun e => e.isAdd) = L.length := by
  induction L with
  | nil => simp
  | cons b L ih =>
    simp [List.countP_cons, List.countP_append, List.countP_nil,
      isEmbed_embed, isEmbed_add, isAdd_embed, isAdd_add, ih.1, ih.2]

/-- With 15 documents and batch size 5 the chunk lengths are `[5, 5, 5]`. -/
theorem chunks5_shape : ∀ (k : Nat) (l : List Document), l.length = 5 * k →
    (chunks 5 l).map List.length = List.replicate k 5 := by
  intro k
  induction k with
  | zero =>
    intro l hl
    have : l = [] := List.length_eq_zero.mp (by omega)
    subst this
    simp [chunks_nil]
  | succ k ih =>
    intro l hl
    rcases l with _ | ⟨x, xs⟩
    · simp only [List.length_nil] at hl
      omega
    · rw [chunks_cons (by omega)]
      simp only [List.map_cons, List.replicate_succ]
      have h1 : (List.take 5 (x :: xs)).length = 5 := by
        simp only [List.length_take, List.length_cons]
        simp only [List.length_cons] at hl
        omega
      have h2 : List.map List.length (chunks 5 (List.drop 5 (x :: xs)))
          = List.replicate k 5 := by
        apply ih
        simp only [List.length_drop, List.length_cons]
        simp only [List.length_cons] at hl
        omega
      rw [h1, h2]

/-- C7.  `ingest_jsonl` partitions the loaded documents into consecutive
batches of `batch_size` in file order; each batch, one at a time, first has
its texts embedded and is then added to the store with the positionally
aligned embeddings; 15 documents at batch size 5 give exactly 3 embed calls
and 3 add calls of size 5, in file order. -/
theorem C7_sequential_batching {α : Type} (provider : List String → List α)
    (docs : List Document) (bs : Nat) (hbs : 0 < bs) :
    (chunks bs docs).flatten = docs ∧
    (∀ b ∈ chunks bs docs, b ≠ [] ∧ b.length ≤ bs) ∧
    (ingestBatches provider bs docs).1 =
      (chunks bs docs).flatMap (fun b =>
        [IngestEvent.embed (b.map (fun doc => doc.content)),
         IngestEvent.add b (provider (b.map (fun doc => doc.content)))]) ∧
    (ingestBatches provider bs docs).2 = docs.length ∧
    (docs.length = 15 → bs = 5 →
      (ingestBatches provider bs docs).1.countP (fun e => e.isEmbed) = 3 ∧
      (ingestBatches provider bs docs).1.countP (fun e => e.isAdd) = 3 ∧
      ∀ b embs, IngestEvent.add b embs ∈ (ingestBatches provider bs docs).1 →
        b.length = 5 ∧ embs = provider (b.map (fun doc => doc.content))) := by
  have hbs' : bs ≠ 0 := by omega
  obtain ⟨hev, htot⟩ := ingestBatches_spec provider hbs' docs
  refine ⟨chunks_flatten hbs' docs, chunks_mem_shape hbs' docs, hev, htot, ?_⟩
  intro hlen hbs5
  subst hbs5
  have hshape := chunks5_shape 3 docs (by omega)
  obtain ⟨hce, hca⟩ := countP_pair_trace (fun b => b.map (fun doc => doc.content))
    (fun b => provider (b.map (fun doc => doc.content))) (chunks 5 docs)
  have hclen : (chunks 5 docs).length = 3 := by
    have := congrArg List.length hshape
    simpa using this
  refine ⟨by rw [hev, hce, hclen], by rw [hev, hca, hclen], ?_⟩
  intro b embs hmem
  rw [hev] at hmem
  obtain ⟨b', hb', hin⟩ := List.mem_flatMap.mp hmem
  simp only [List.mem_cons, List.not_mem_nil, or_false] at hin
  rcases hin with hin | hin
  · exact absurd hin (by simp)
  · injection hin with h1 h2
    subst h1
    subst h2
    refine ⟨?_, rfl⟩
    have hmem2 : b.length ∈ (chunks 5 docs).map List.length :=
      List.mem_map_of_mem _ hb'
    rw [hshape] at hmem2
    exact List.eq_of_mem_replicate hmem2

/-- Fifteen concrete documents for the C7 witness. -/
def docs15 : List Document :=
  (List.range 15).map (fun i => ⟨"src:doc_" ++ toString i, "content " ++ toString i, []⟩)

/-- Witness for C7 at 15 concrete documents, batch size 5 and a concrete
embedding oracle: the chunks concatenate back, 15 ingested, 3 embeds and 3
adds. -/
theorem C7_sequential_batching_witness :
    (0 : Nat) < 5 ∧
    (chunks 5 docs15).flatten = docs15 ∧
    (ingestBatches (fun ts => ts.map (fun _ => (0 : Nat))) 5 docs15).2 = 15 ∧
    (ingestBatches (fun ts => ts.map (fun _ => (0 : Nat))) 5 docs15).1.countP
      (fun e => e.isEmbed) = 3 ∧
    (ingestBatches (fun ts => ts.map (fun _ => (0 : Nat))) 5 docs15).1.countP
      (fun e => e.isAdd) = 3 := by
  have h := C7_sequential_batching (fun ts => ts.map (fun _ => (0 : Nat)))
    docs15 5 (by decide)
  have hlen : docs15.length = 15 := rfl
  have hsc := h.2.2.2.2 hlen rfl
  exact ⟨by decide, h.1, by rw [h.2.2.2.1]; exact hlen, hsc.1, hsc.2.1⟩

/-- C8.  During loading, a JSON-parse failure is logged and the line
skipped without aborting (the loop continues at the next line number); a
record whose content (`markdown_content or definition or ""`) strips to
empty is skipped; and a file of valid record, invalid-JSON line, valid
record loads exactly 2 documents. -/
theorem C8_loader_skips (source : String) (hc : Bool) (n : Nat) (e : String)
    (rest : List (Except String Json)) (imgs : List (String × Json)) :
    (loadLoop source hc n (.error e :: rest) imgs =
      loadLoop source hc (n + 1) rest imgs) ∧
    (∀ fields c, contentOf fields = Json.str c → pyStrip c = "" →
      loadLoop source hc n (.ok (.obj fields) :: rest) imgs =
        loadLoop source hc (n + 1) rest imgs) ∧
    (∀ r1 r2 c1 c2, contentOf r1 = Json.str c1 → pyStrip c1 ≠ "" →
      contentOf r2 = Json.str c2 → pyStrip c2 ≠ "" →
      ∀ d1 d2, buildDocument source 1 r1 c1 = .ok d1 →
        buildDocument source 3 r2 c2 = .ok d2 →
      (load_documents source false [.ok (.obj r1), .error e, .ok (.obj r2)]).map
        (fun p => p.1.length) = .ok 2) := by
  refine ⟨rfl, ?_, ?_⟩
  · intro fields c hcf htrim
    simp [loadLoop, hcf, htrim]
  · intro r1 r2 c1 c2 h1 ht1 h2 ht2 d1 d2 hb1 hb2
    simp [load_documents, loadLoop, h1, ht1, h2, ht2, hb1, hb2]
    rfl

/-- Witness for C8: concrete records (a term definition and a markdown
article) around one broken line load exactly two documents; a
whitespace-only definition is skipped. -/
theorem C8_loader_skips_witness :
    (loadLoop "src" false 1 (.error "bad json" :: [.ok (.obj [("term", .str "t"),
        ("definition", .str "d")])]) [] =
      loadLoop "src" false 2 [.ok (.obj [("term", .str "t"),
        ("definition", .str "d")])] []) ∧
    contentOf [("definition", .str "   ")] = Json.str "   " ∧
    pyStrip "   " = "" ∧
    (loadLoop "src" false 1 (.ok (.obj [("definition", .str "   ")]) :: []) [] =
      loadLoop "src" false 2 [] []) ∧
    contentOf [("definition", .str "first term")] = Json.str "first term" ∧
    contentOf [("markdown_content", .str "body text")] = Json.str "body text" ∧
    (load_documents "src" false [.ok (.obj [("definition", .str "first term")]),
        .error "bad json", .ok (.obj [("markdown_content", .str "body text")])]).map
      (fun p => p.1.length) = .ok 2 := by
  have h := C8_loader_skips "src" false 1 "bad json"
    [.ok (.obj [("term", .str "t"), ("definition", .str "d")])] []
  have h2 := C8_loader_skips "src" false 1 "bad json" [] []
  refine ⟨h.1, rfl, by decide, h2.2.1 [("definition", .str "   ")] "   " rfl (by decide),
    rfl, rfl, ?_⟩
  exact h2.2.2 [("definition", .str "first term")]
    [("markdown_content", .str "body text")] "first term" "body text"
    rfl (by decide) rfl (by decide) _ _ rfl rfl

/-- C9.  Only `json.JSONDecodeError` is caught: a line that parses as valid
JSON but is not an object (a bare number, string, list …) makes the first
`record.get` raise `AttributeError`, which escapes the loader and aborts
the whole file — it is not logged-and-skipped, and no documents are
returned however many valid lines follow. -/
theorem C9_non_object_aborts (source : String) (hc : Bool) (n : Nat)
    (v : Json) (hv : ∀ fields, v ≠ Json.obj fields)
    (rest : List (Except String Json)) (imgs : List (String × Json)) :
    loadLoop source hc n (.ok v :: rest) imgs =
      .error "AttributeError: object has no attribute get" ∧
    load_documents source hc (.ok v :: rest) =
      .error "AttributeError: object has no attribute get" := by
  cases v with
  | obj fields => exact absurd rfl (hv fields)
  | null => exact ⟨rfl, rfl⟩
  | bool b => exact ⟨rfl, rfl⟩
  | num m => exact ⟨rfl, rfl⟩
  | str s => exact ⟨rfl, rfl⟩
  | arr l => exact ⟨rfl, rfl⟩

/-- Witness for C9: the line `5` aborts the file even though a valid record
follows. -/
theorem C9_non_object_aborts_witness :
    (∀ fields, Json.num 5 ≠ Json.obj fields) ∧
    load_documents "src" false [.ok (.num 5),
        .ok (.obj [("definition", .str "first term")])] =
      .error "AttributeError: object has no attribute get" := by
  refine ⟨fun fields h => Json.noConfusion h, ?_⟩
  exact (C9_non_object_aborts "src" false 1 (.num 5)
    (fun fields h => Json.noConfusion h)
    [.ok (.obj [("definition", .str "first term")])] []).2

end RequirementsAdvisor
